import Mathlib

/-!
# Verification of the OmniTrade risk-gated trading core

Shallow embedding of `backend/app/core/risk_manager.py`,
`backend/app/core/trading_engine.py` (trade-execution sub-path) and the
signal-aggregation step of `backend/app/strategies/technical_strategy.py`.

Python `Decimal`/float arithmetic is modelled exactly over `ℚ`; log calls,
timestamps and the interpolated parts of message strings are dropped (halt
and rejection reasons are kept as constant tags).
-/

/-- Configuration surface consumed by the core
(`backend/app/core/config.py`, class `Settings`), with the source defaults. -/
structure Settings where
  MAX_POSITION_SIZE_PCT : ℚ := 5
  MAX_PORTFOLIO_EXPOSURE_PCT : ℚ := 80
  DEFAULT_STOP_LOSS_PCT : ℚ := 2
  DAILY_LOSS_LIMIT_PCT : ℚ := 10
  MAX_CONSECUTIVE_LOSSES : ℕ := 5
  ENABLE_TRADING : Bool := false
  MIN_ORDER_SIZE_USD : ℚ := 10
  MAX_OPEN_POSITIONS : ℕ := 20
deriving Repr, DecidableEq

/-- The `Settings()` instance built from the defaults (`config.settings`). -/
def defaultSettings : Settings := {}

/-- An open position as stored in `RiskManager.open_positions`
(`add_position` builds the dict `{'quantity', 'entry_price', 'stop_loss',
'value', 'opened_at'}`; the timestamp is dropped). -/
structure Position where
  quantity : ℚ
  entry_price : ℚ
  stop_loss : ℚ
  value : ℚ
deriving Repr, DecidableEq

/-- Mutable state of `RiskManager` (`risk_manager.py`, `__init__`), the
`last_reset` timestamp dropped.  `open_positions` is the Python dict keyed by
symbol, modelled as an insertion-ordered association list. -/
structure RiskManager where
  daily_pnl : ℚ
  consecutive_losses : ℕ
  trading_halted : Bool
  halt_reason : Option String
  open_positions : List (String × Position)
deriving Repr, DecidableEq

/-- The fresh `RiskManager()` state. -/
def RiskManager.init : RiskManager :=
  { daily_pnl := 0, consecutive_losses := 0, trading_halted := false,
    halt_reason := none, open_positions := [] }

/-- Dict read `self.open_positions[symbol]` / membership test. -/
def lookupPos : List (String × Position) → String → Option Position
  | [], _ => none
  | (k, v) :: rest, sym => if k = sym then some v else lookupPos rest sym

/-- Dict write `self.open_positions[symbol] = pos`: overwrite in place when the
key exists, append otherwise (Python dicts keep insertion order). -/
def upsertPos : List (String × Position) → String → Position → List (String × Position)
  | [], sym, pos => [(sym, pos)]
  | (k, v) :: rest, sym, pos =>
      if k = sym then (sym, pos) :: rest else (k, v) :: upsertPos rest sym pos

/-- Dict delete `del self.open_positions[symbol]` (no error if absent). -/
def deletePos : List (String × Position) → String → List (String × Position)
  | [], _ => []
  | (k, v) :: rest, sym => if k = sym then rest else (k, v) :: deletePos rest sym

/-- `sum(pos['value'] for pos in self.open_positions.values())`. -/
def totalExposure (ps : List (String × Position)) : ℚ :=
  (ps.map (fun p => p.2.value)).sum

/-- `RiskManager.reset_daily_stats`. -/
def reset_daily_stats (_rm : RiskManager) : RiskManager :=
  { daily_pnl := 0, consecutive_losses := 0, trading_halted := false,
    halt_reason := none, open_positions := _rm.open_positions }

/-- `RiskManager.check_circuit_breakers(portfolio_value)`: returns the
post-call state together with `(can_trade, reason)`. -/
def check_circuit_breakers (s : Settings) (rm : RiskManager) (portfolio_value : ℚ) :
    RiskManager × Bool × Option String :=
  if rm.trading_halted then
    (rm, false, rm.halt_reason)
  else
    let daily_loss_pct : ℚ :=
      if portfolio_value > 0 then rm.daily_pnl / portfolio_value * 100 else 0
    if daily_loss_pct ≤ -s.DAILY_LOSS_LIMIT_PCT then
      let rm2 := { rm with trading_halted := true,
                           halt_reason := some "Daily loss limit breached" }
      (rm2, false, rm2.halt_reason)
    else if rm.consecutive_losses ≥ s.MAX_CONSECUTIVE_LOSSES then
      let rm2 := { rm with trading_halted := true,
                           halt_reason := some "Max consecutive losses reached" }
      (rm2, false, rm2.halt_reason)
    else if ¬ s.ENABLE_TRADING then
      (rm, false, some "Trading is disabled in configuration")
    else
      (rm, true, none)

/-- `RiskManager.calculate_position_size(symbol, entry_price, stop_loss_price,
portfolio_value, risk_per_trade_pct)`.  Note that the zero-price-risk branch
returns `Decimal(settings.MIN_ORDER_SIZE_USD)` itself, not divided by the
entry price. -/
def calculate_position_size (s : Settings) (_symbol : String)
    (entry_price stop_loss_price portfolio_value : ℚ)
    (risk_per_trade_pct : Option ℚ) : ℚ :=
  let risk_pct := risk_per_trade_pct.getD s.DEFAULT_STOP_LOSS_PCT
  let risk_amount := portfolio_value * (risk_pct / 100)
  let price_risk := |entry_price - stop_loss_price|
  if price_risk = 0 then
    s.MIN_ORDER_SIZE_USD
  else
    let position_size := risk_amount / price_risk
    let max_position_value := portfolio_value * (s.MAX_POSITION_SIZE_PCT / 100)
    let max_position_size := max_position_value / entry_price
    let clamped := min position_size max_position_size
    let position_value := clamped * entry_price
    if position_value < s.MIN_ORDER_SIZE_USD then
      s.MIN_ORDER_SIZE_USD / entry_price
    else
      clamped

/-- `RiskManager.validate_trade(symbol, side, quantity, price,
portfolio_value)`: post-call state together with `(is_valid, reason)`.
Rejection reasons are kept as constant tags. -/
def validate_trade (s : Settings) (rm : RiskManager) (_symbol _side : String)
    (quantity price portfolio_value : ℚ) : RiskManager × Bool × Option String :=
  let cb := check_circuit_breakers s rm portfolio_value
  let rm1 := cb.1
  if ¬ cb.2.1 then
    (rm1, false, cb.2.2)
  else
    let position_value := quantity * price
    if position_value < s.MIN_ORDER_SIZE_USD then
      (rm1, false, some "Position value below minimum")
    else
      let max_position_value := portfolio_value * (s.MAX_POSITION_SIZE_PCT / 100)
      if position_value > max_position_value then
        (rm1, false, some "Position value exceeds max")
      else
        let exposure := totalExposure rm1.open_positions + position_value
        let max_exposure := portfolio_value * (s.MAX_PORTFOLIO_EXPOSURE_PCT / 100)
        if exposure > max_exposure then
          (rm1, false, some "Total exposure exceeds max")
        else if rm1.open_positions.length ≥ s.MAX_OPEN_POSITIONS then
          (rm1, false, some "Max open positions reached")
        else
          (rm1, true, none)

/-- `RiskManager.record_trade_result(symbol, pnl)`. -/
def record_trade_result (rm : RiskManager) (_symbol : String) (pnl : ℚ) : RiskManager :=
  let rm1 := { rm with daily_pnl := rm.daily_pnl + pnl }
  if pnl < 0 then
    { rm1 with consecutive_losses := rm1.consecutive_losses + 1 }
  else
    { rm1 with consecutive_losses := 0 }

/-- `RiskManager.add_position(symbol, quantity, entry_price, stop_loss)`. -/
def add_position (rm : RiskManager) (symbol : String)
    (quantity entry_price stop_loss : ℚ) : RiskManager :=
  { rm with open_positions :=
      (upsertPos rm.open_positions symbol
        { quantity := quantity, entry_price := entry_price,
          stop_loss := stop_loss, value := quantity * entry_price }) }

/-- `RiskManager.remove_position(symbol)`. -/
def remove_position (rm : RiskManager) (symbol : String) : RiskManager :=
  { rm with open_positions := deletePos rm.open_positions symbol }

/-- `RiskManager.check_stop_loss(symbol, current_price)`. -/
def check_stop_loss (rm : RiskManager) (symbol : String) (current_price : ℚ) : Bool :=
  match lookupPos rm.open_positions symbol with
  | none => false
  | some pos => current_price ≤ pos.stop_loss

/-- `RiskManager.update_trailing_stop(symbol, current_price, trailing_pct)`:
only tightens in profit, adopts the candidate only when it strictly exceeds
the current stop. -/
def update_trailing_stop (rm : RiskManager) (symbol : String)
    (current_price trailing_pct : ℚ) : RiskManager :=
  match lookupPos rm.open_positions symbol with
  | none => rm
  | some pos =>
      if current_price > pos.entry_price then
        let new_stop := current_price * (1 - trailing_pct / 100)
        if new_stop > pos.stop_loss then
          { rm with open_positions :=
              (upsertPos rm.open_positions symbol { pos with stop_loss := new_stop }) }
        else rm
      else rm

/-- A trade signal direction (`'buy'` / `'sell'` / `'hold'` in the source). -/
inductive Signal where
  | buy
  | sell
  | hold
deriving Repr, DecidableEq

/-- Signal-aggregation step of `TechnicalStrategy.combined_analysis`
(`technical_strategy.py`): the per-indicator sub-results (one `(signal,
confidence)` pair per indicator run, collected in evaluation order) are
aggregated by majority vote among the non-hold sub-signals, the winning
side's confidence being the mean over the agreeing sub-signals.  The
indicator computations themselves (pandas/`ta` library calls) are the
external part; this models the aggregation over their outcomes. -/
def combined_analysis (subResults : List (Signal × ℚ)) : Signal × ℚ :=
  let signals := subResults.filter (fun r => r.1 ≠ Signal.hold)
  if signals = [] then
    (Signal.hold, 0)
  else
    let buy_signals := (signals.filter (fun r => r.1 = Signal.buy)).length
    let sell_signals := (signals.filter (fun r => r.1 = Signal.sell)).length
    if buy_signals > sell_signals then
      (Signal.buy,
        ((signals.filter (fun r => r.1 = Signal.buy)).map (fun r => r.2)).sum / buy_signals)
    else if sell_signals > buy_signals then
      (Signal.sell,
        ((signals.filter (fun r => r.1 = Signal.sell)).map (fun r => r.2)).sum / sell_signals)
    else
      (Signal.hold, 0)

/-- `TradingEngine._execute_trade(symbol, signal, current_price,
portfolio_value, ...)`: stop-loss computation, sizing, validation, then
position registration on approval.  Order placement, logging and
notifications are external effects; the returned Bool is whether the trade
was executed (rather than rejected). -/
def execute_trade (s : Settings) (rm : RiskManager) (symbol signal : String)
    (current_price portfolio_value : ℚ) : RiskManager × Bool × Option String :=
  let stop_loss_price :=
    if signal = "buy" then current_price * (1 - s.DEFAULT_STOP_LOSS_PCT / 100)
    else current_price * (1 + s.DEFAULT_STOP_LOSS_PCT / 100)
  let position_size :=
    calculate_position_size s symbol current_price stop_loss_price portfolio_value none
  let v := validate_trade s rm symbol signal position_size current_price portfolio_value
  if v.2.1 then
    (add_position v.1 symbol position_size current_price stop_loss_price, true, none)
  else
    (v.1, false, v.2.2)

/-- One call into the `RiskManager` API, used to state cross-call (temporal)
properties over arbitrary interleavings of operations. -/
inductive Op where
  | checkBreakers (portfolio_value : ℚ)
  | validate (symbol side : String) (quantity price portfolio_value : ℚ)
  | calcSize (symbol : String) (entry stop pv : ℚ) (riskPct : Option ℚ)
  | record (symbol : String) (pnl : ℚ)
  | add (symbol : String) (quantity entry_price stop_loss : ℚ)
  | remove (symbol : String)
  | stopCheck (symbol : String) (current_price : ℚ)
  | trail (symbol : String) (current_price trailing_pct : ℚ)
  | resetDaily
deriving Repr, DecidableEq

/-- Effect of one `RiskManager` call on the ledger state. -/
def applyOp (s : Settings) (rm : RiskManager) : Op → RiskManager
  | .checkBreakers pv => (check_circuit_breakers s rm pv).1
  | .validate sym side q p pv => (validate_trade s rm sym side q p pv).1
  | .calcSize _ _ _ _ _ => rm
  | .record sym pnl => record_trade_result rm sym pnl
  | .add sym q e st => add_position rm sym q e st
  | .remove sym => remove_position rm sym
  | .stopCheck _ _ => rm
  | .trail sym p pct => update_trailing_stop rm sym p pct
  | .resetDaily => reset_daily_stats rm

/-- Effect of a sequence of `RiskManager` calls. -/
def applyOps (s : Settings) (rm : RiskManager) (ops : List Op) : RiskManager :=
  ops.foldl (applyOp s) rm

/-! ## Association-list lemmas -/

theorem lookupPos_upsertPos_self (l : List (String × Position)) (k : String) (v : Position) :
    lookupPos (upsertPos l k v) k = some v := by
  induction l with
  | nil => simp [upsertPos, lookupPos]
  | cons hd t ih =>
      obtain ⟨k2, v2⟩ := hd
      by_cases hk : k2 = k <;> simp [upsertPos, lookupPos, hk, ih]

theorem length_upsertPos_le (l : List (String × Position)) (k : String) (v : Position) :
    (upsertPos l k v).length ≤ l.length + 1 := by
  induction l with
  | nil => simp [upsertPos]
  | cons hd t ih =>
      obtain ⟨k2, v2⟩ := hd
      by_cases hk : k2 = k
      · simp [upsertPos, hk]
      · simp only [upsertPos, hk, if_false, List.length_cons]
        omega

theorem length_upsertPos_of_mem (l : List (String × Position)) (k : String)
    (p v : Position) (h : lookupPos l k = some p) :
    (upsertPos l k v).length = l.length := by
  induction l with
  | nil => simp [lookupPos] at h
  | cons hd t ih =>
      obtain ⟨k2, v2⟩ := hd
      by_cases hk : k2 = k
      · simp [upsertPos, hk]
      · simp [lookupPos, hk] at h
        simp [upsertPos, hk, ih h]

/-! ## Circuit-breaker basic lemmas -/

theorem check_circuit_breakers_of_halted (s : Settings) (rm : RiskManager) (pv : ℚ)
    (h : rm.trading_halted = true) :
    check_circuit_breakers s rm pv = (rm, false, rm.halt_reason) := by
  simp [check_circuit_breakers, h]

theorem check_circuit_breakers_frame (s : Settings) (rm : RiskManager) (pv : ℚ) :
    (check_circuit_breakers s rm pv).1.daily_pnl = rm.daily_pnl ∧
    (check_circuit_breakers s rm pv).1.consecutive_losses = rm.consecutive_losses ∧
    (check_circuit_breakers s rm pv).1.open_positions = rm.open_positions := by
  simp only [check_circuit_breakers]
  split_ifs <;> simp

theorem check_circuit_breakers_halted_mono (s : Settings) (rm : RiskManager) (pv : ℚ)
    (h : rm.trading_halted = true) :
    (check_circuit_breakers s rm pv).1.trading_halted = true := by
  rw [check_circuit_breakers_of_halted s rm pv h]
  exact h

theorem check_circuit_breakers_blocked_of_halted (s : Settings) (rm : RiskManager) (pv : ℚ)
    (h : rm.trading_halted = true) :
    (check_circuit_breakers s rm pv).2.1 = false := by
  rw [check_circuit_breakers_of_halted s rm pv h]

theorem validate_trade_fst (s : Settings) (rm : RiskManager) (sym side : String)
    (q p pv : ℚ) :
    (validate_trade s rm sym side q p pv).1 = (check_circuit_breakers s rm pv).1 := by
  simp only [validate_trade]
  split_ifs <;> rfl

/-! ## Halt stickiness across arbitrary operation sequences -/

theorem applyOp_halted_mono (s : Settings) (rm : RiskManager) (op : Op)
    (h : rm.trading_halted = true) (hop : op ≠ Op.resetDaily) :
    (applyOp s rm op).trading_halted = true := by
  cases op with
  | checkBreakers pv =>
      simpa [applyOp] using check_circuit_breakers_halted_mono s rm pv h
  | validate sym side q p pv =>
      rw [applyOp, validate_trade_fst]
      exact check_circuit_breakers_halted_mono s rm pv h
  | calcSize sym e st pv r => exact h
  | record sym pnl =>
      simp only [applyOp, record_trade_result]
      split_ifs <;> exact h
  | add sym q e st => exact h
  | remove sym => exact h
  | stopCheck sym p => exact h
  | trail sym p pct =>
      simp only [applyOp, update_trailing_stop]
      cases lookupPos rm.open_positions sym with
      | none => exact h
      | some pos => dsimp only; split_ifs <;> exact h
  | resetDaily => exact absurd rfl hop

theorem applyOps_halted_mono (s : Settings) (ops : List Op) (rm : RiskManager)
    (h : rm.trading_halted = true) (hops : Op.resetDaily ∉ ops) :
    (applyOps s rm ops).trading_halted = true := by
  induction ops generalizing rm with
  | nil => exact h
  | cons op t ih =>
      rw [applyOps, List.foldl_cons]
      have hop : op ≠ Op.resetDaily := fun e => hops (e ▸ List.mem_cons_self op t)
      have ht : Op.resetDaily ∉ t := fun m => hops (List.mem_cons_of_mem op m)
      exact ih (applyOp s rm op) (applyOp_halted_mono s rm op h hop) ht

theorem check_circuit_breakers_daily_loss (s : Settings) (rm : RiskManager) (pv : ℚ)
    (hpv : 0 < pv) (hloss : rm.daily_pnl / pv * 100 ≤ -s.DAILY_LOSS_LIMIT_PCT)
    (hnh : rm.trading_halted = false) :
    check_circuit_breakers s rm pv =
      ({ rm with trading_halted := true,
                 halt_reason := some "Daily loss limit breached" },
        false, some "Daily loss limit breached") := by
  simp [check_circuit_breakers, hnh, hpv, hloss]

/-- C1: for every portfolio value strictly greater than 0, if
`dailyRealizedPnl / portfolioValue * 100 <= -DailyLossLimitPct` then
`checkCircuitBreakers` returns blocked with `tradingHalted` set to true, every
subsequent call (after any sequence of non-reset operations, with any
portfolio value) also returns blocked, and `resetDaily()` clears the halt
while no other operation does. -/
theorem daily_loss_circuit_breaker_sticky (s : Settings) (rm : RiskManager) (pv : ℚ)
    (hpv : 0 < pv) (hloss : rm.daily_pnl / pv * 100 ≤ -s.DAILY_LOSS_LIMIT_PCT) :
    ((check_circuit_breakers s rm pv).2.1 = false ∧
      (check_circuit_breakers s rm pv).1.trading_halted = true) ∧
    (∀ ops : List Op, Op.resetDaily ∉ ops →
      (applyOps s (check_circuit_breakers s rm pv).1 ops).trading_halted = true ∧
      ∀ pv2 : ℚ,
        (check_circuit_breakers s
            (applyOps s (check_circuit_breakers s rm pv).1 ops) pv2).2.1 = false) ∧
    (∀ rm2 : RiskManager, (reset_daily_stats rm2).trading_halted = false) := by
  have hmain : (check_circuit_breakers s rm pv).2.1 = false ∧
      (check_circuit_breakers s rm pv).1.trading_halted = true := by
    by_cases h : rm.trading_halted = true
    · exact ⟨check_circuit_breakers_blocked_of_halted s rm pv h,
        check_circuit_breakers_halted_mono s rm pv h⟩
    · have hnh : rm.trading_halted = false := by simpa using h
      rw [check_circuit_breakers_daily_loss s rm pv hpv hloss hnh]
      exact ⟨rfl, rfl⟩
  refine ⟨hmain, fun ops hops => ?_, fun rm2 => rfl⟩
  have hhalt := applyOps_halted_mono s ops _ hmain.2 hops
  exact ⟨hhalt, fun pv2 => check_circuit_breakers_blocked_of_halted s _ pv2 hhalt⟩

theorem daily_loss_circuit_breaker_sticky_witness :
    (0 : ℚ) < 10000 ∧
    (check_circuit_breakers defaultSettings
        { RiskManager.init with daily_pnl := -1000 } 10000).2.1 = false ∧
    (applyOps defaultSettings
        (check_circuit_breakers defaultSettings
          { RiskManager.init with daily_pnl := -1000 } 10000).1
        [Op.record "AAPL" 50, Op.checkBreakers 5000]).trading_halted = true := by
  have h := daily_loss_circuit_breaker_sticky defaultSettings
      { RiskManager.init with daily_pnl := -1000 } 10000 (by norm_num)
      (by norm_num [RiskManager.init, defaultSettings])
  exact ⟨by norm_num, h.1.1,
    (h.2.1 [Op.record "AAPL" 50, Op.checkBreakers 5000] (by decide)).1⟩

/-- C2: for `portfolioValue=10000`, `entryPrice=150`, `stopLossPrice=147`,
`riskPct=2` under the default configuration (`MaxPositionSizePct=5`,
`MinOrderSizeUsd=10`), `calculatePositionSize` returns exactly `500/150 ≈
3.33` units (notional $500): the risk-based size `200/3` is clamped down by
the maximum-position-value limit. -/
theorem position_size_scenario :
    calculate_position_size defaultSettings "AAPL" 150 147 10000 (some 2) = 500 / 150 ∧
    calculate_position_size defaultSettings "AAPL" 150 147 10000 (some 2) * 150 = 500 ∧
    (500 / 150 : ℚ) < 200 / 3 := by
  norm_num [calculate_position_size, defaultSettings]

/-- C8: `recordResult` adds `pnl` to `dailyRealizedPnl`; a negative `pnl`
increments `consecutiveLosses` by exactly 1 and a non-negative one resets it
to 0; the halt flag, halt reason and open positions are unchanged. -/
theorem record_trade_result_spec (rm : RiskManager) (sym : String) (pnl : ℚ) :
    (record_trade_result rm sym pnl).daily_pnl = rm.daily_pnl + pnl ∧
    (pnl < 0 →
      (record_trade_result rm sym pnl).consecutive_losses = rm.consecutive_losses + 1) ∧
    (0 ≤ pnl → (record_trade_result rm sym pnl).consecutive_losses = 0) ∧
    (record_trade_result rm sym pnl).trading_halted = rm.trading_halted ∧
    (record_trade_result rm sym pnl).halt_reason = rm.halt_reason ∧
    (record_trade_result rm sym pnl).open_positions = rm.open_positions := by
  simp only [record_trade_result]
  split_ifs with hneg
  · exact ⟨rfl, fun _ => rfl, fun hge => absurd hneg (not_lt.mpr hge), rfl, rfl, rfl⟩
  · exact ⟨rfl, fun hlt => absurd hlt hneg, fun _ => rfl, rfl, rfl, rfl⟩

theorem record_trade_result_spec_witness :
    ((-5 : ℚ) < 0 ∧
      (record_trade_result RiskManager.init "AAPL" (-5)).consecutive_losses =
        RiskManager.init.consecutive_losses + 1) ∧
    ((0 : ℚ) ≤ 7 ∧
      (record_trade_result (record_trade_result RiskManager.init "AAPL" (-5))
          "AAPL" 7).consecutive_losses = 0) :=
  ⟨⟨by norm_num,
      (record_trade_result_spec RiskManager.init "AAPL" (-5)).2.1 (by norm_num)⟩,
    ⟨by norm_num,
      (record_trade_result_spec (record_trade_result RiskManager.init "AAPL" (-5))
          "AAPL" 7).2.2.1 (by norm_num)⟩⟩

/-! ## Trailing-stop lemmas -/

theorem update_trailing_stop_step (rm : RiskManager) (sym : String) (pos : Position)
    (h : lookupPos rm.open_positions sym = some pos) (price pct : ℚ) :
    ∃ pos2 : Position,
      lookupPos (update_trailing_stop rm sym price pct).open_positions sym = some pos2 ∧
      pos.stop_loss ≤ pos2.stop_loss := by
  simp only [update_trailing_stop, h]
  split_ifs with h1 h2
  · exact ⟨{ pos with stop_loss := price * (1 - pct / 100) },
      by simp [lookupPos_upsertPos_self], le_of_lt h2⟩
  · exact ⟨pos, h, le_refl _⟩
  · exact ⟨pos, h, le_refl _⟩

theorem update_trailing_stop_foldl (sym : String) (calls : List (ℚ × ℚ)) :
    ∀ (rm : RiskManager) (pos : Position),
      lookupPos rm.open_positions sym = some pos →
      ∃ pos2 : Position,
        lookupPos ((calls.foldl
            (fun r c => update_trailing_stop r sym c.1 c.2) rm).open_positions) sym =
          some pos2 ∧
        pos.stop_loss ≤ pos2.stop_loss := by
  induction calls with
  | nil => exact fun rm pos h => ⟨pos, h, le_refl _⟩
  | cons c t ih =>
      intro rm pos h
      obtain ⟨pos1, h1, hle1⟩ := update_trailing_stop_step rm sym pos h c.1 c.2
      obtain ⟨pos2, h2, hle2⟩ := ih _ pos1 h1
      exact ⟨pos2, by rw [List.foldl_cons]; exact h2, le_trans hle1 hle2⟩

/-- C5: for an open position, `updateTrailingStop` is a no-op when
`currentPrice <= entryPrice`, otherwise the candidate
`currentPrice * (1 - trailingPct/100)` is adopted exactly when it strictly
exceeds the current stop; hence over any sequence of calls (with any prices
and non-negative trailing percentages) the stored stop is monotonically
non-decreasing. -/
theorem trailing_stop_monotone (rm : RiskManager) (sym : String) (pos : Position)
    (h : lookupPos rm.open_positions sym = some pos) :
    (∀ price pct : ℚ, price ≤ pos.entry_price →
        update_trailing_stop rm sym price pct = rm) ∧
    (∀ price pct : ℚ, pos.entry_price < price →
        price * (1 - pct / 100) ≤ pos.stop_loss →
        update_trailing_stop rm sym price pct = rm) ∧
    (∀ price pct : ℚ, pos.entry_price < price →
        pos.stop_loss < price * (1 - pct / 100) →
        lookupPos (update_trailing_stop rm sym price pct).open_positions sym =
          some { pos with stop_loss := price * (1 - pct / 100) }) ∧
    (∀ calls : List (ℚ × ℚ), (∀ c ∈ calls, 0 ≤ c.2) →
        ∃ pos2 : Position,
          lookupPos ((calls.foldl
              (fun r c => update_trailing_stop r sym c.1 c.2) rm).open_positions) sym =
            some pos2 ∧
          pos.stop_loss ≤ pos2.stop_loss) := by
  refine ⟨fun price pct hle => ?_, fun price pct hgt hle => ?_, fun price pct hgt hlt => ?_,
    fun calls _ => update_trailing_stop_foldl sym calls rm pos h⟩
  · simp only [update_trailing_stop, h]
    rw [if_neg (not_lt.mpr hle)]
  · simp only [update_trailing_stop, h]
    rw [if_pos hgt, if_neg (not_lt.mpr hle)]
  · simp only [update_trailing_stop, h]
    rw [if_pos hgt, if_pos hlt]
    simp [lookupPos_upsertPos_self]

theorem trailing_stop_monotone_witness :
    update_trailing_stop (add_position RiskManager.init "BTC" 1 100 98) "BTC" 99 2 =
      add_position RiskManager.init "BTC" 1 100 98 ∧
    lookupPos (update_trailing_stop (add_position RiskManager.init "BTC" 1 100 98)
        "BTC" 110 2).open_positions "BTC" =
      some { quantity := 1, entry_price := 100, stop_loss := 110 * (1 - 2 / 100),
             value := 1 * 100 } := by
  have hl : lookupPos (add_position RiskManager.init "BTC" 1 100 98).open_positions "BTC" =
      some { quantity := 1, entry_price := 100, stop_loss := 98, value := 1 * 100 } := by
    simp [add_position, RiskManager.init, upsertPos, lookupPos]
  have h := trailing_stop_monotone (add_position RiskManager.init "BTC" 1 100 98) "BTC" _ hl
  exact ⟨h.1 99 2 (by norm_num), by simpa using h.2.2.1 110 2 (by norm_num) (by norm_num)⟩

/-- C9: the combined analysis returns the majority direction among the
non-hold sub-signals with confidence equal to the mean confidence of the
agreeing sub-signals; an exact buy/sell tie or an absence of non-hold
sub-signals yields hold with confidence 0; in particular buy votes with
confidences [0.8, 0.6, 0.4] against one sell vote with 0.9 yield
(buy, 0.6). -/
theorem combined_analysis_majority (subResults : List (Signal × ℚ)) :
    ((subResults.filter (fun r => r.1 ≠ Signal.hold)) = [] →
      combined_analysis subResults = (Signal.hold, 0)) ∧
    (((subResults.filter (fun r => r.1 ≠ Signal.hold)).filter
          (fun r => r.1 = Signal.buy)).length >
        ((subResults.filter (fun r => r.1 ≠ Signal.hold)).filter
          (fun r => r.1 = Signal.sell)).length →
      combined_analysis subResults =
        (Signal.buy,
          (((subResults.filter (fun r => r.1 ≠ Signal.hold)).filter
              (fun r => r.1 = Signal.buy)).map (fun r => r.2)).sum /
            ((subResults.filter (fun r => r.1 ≠ Signal.hold)).filter
              (fun r => r.1 = Signal.buy)).length)) ∧
    (((subResults.filter (fun r => r.1 ≠ Signal.hold)).filter
          (fun r => r.1 = Signal.sell)).length >
        ((subResults.filter (fun r => r.1 ≠ Signal.hold)).filter
          (fun r => r.1 = Signal.buy)).length →
      combined_analysis subResults =
        (Signal.sell,
          (((subResults.filter (fun r => r.1 ≠ Signal.hold)).filter
              (fun r => r.1 = Signal.sell)).map (fun r => r.2)).sum /
            ((subResults.filter (fun r => r.1 ≠ Signal.hold)).filter
              (fun r => r.1 = Signal.sell)).length)) ∧
    (((subResults.filter (fun r => r.1 ≠ Signal.hold)).filter
          (fun r => r.1 = Signal.buy)).length =
        ((subResults.filter (fun r => r.1 ≠ Signal.hold)).filter
          (fun r => r.1 = Signal.sell)).length →
      combined_analysis subResults = (Signal.hold, 0)) ∧
    combined_analysis
        [(Signal.buy, 8/10), (Signal.buy, 6/10), (Signal.buy, 4/10), (Signal.sell, 9/10)] =
      (Signal.buy, 6/10) := by
  refine ⟨fun he => ?_, fun hgt => ?_, fun hgt => ?_, fun heq => ?_, ?_⟩
  · simp only [combined_analysis]
    rw [if_pos he]
  · have hne : subResults.filter (fun r => r.1 ≠ Signal.hold) ≠ [] := by
      intro h0
      rw [h0] at hgt
      simp at hgt
    simp only [combined_analysis]
    rw [if_neg hne, if_pos hgt]
  · have hne : subResults.filter (fun r => r.1 ≠ Signal.hold) ≠ [] := by
      intro h0
      rw [h0] at hgt
      simp at hgt
    simp only [combined_analysis]
    rw [if_neg hne, if_neg (by omega), if_pos hgt]
  · by_cases hne : subResults.filter (fun r => r.1 ≠ Signal.hold) = []
    · simp only [combined_analysis]
      rw [if_pos hne]
    · simp only [combined_analysis]
      rw [if_neg hne, if_neg (by omega), if_neg (by omega)]
  · simp [combined_analysis]
    norm_num

theorem combined_analysis_majority_witness :
    combined_analysis [(Signal.sell, 1/2), (Signal.hold, 1)] = (Signal.sell, 1/2) := by
  have h := (combined_analysis_majority [(Signal.sell, 1/2), (Signal.hold, 1)]).2.2.1
    (by simp)
  simpa using h

theorem check_circuit_breakers_nonpos (s : Settings) (rm : RiskManager) (pv : ℚ)
    (hpv : pv ≤ 0) (hlim : 0 < s.DAILY_LOSS_LIMIT_PCT)
    (hnh : rm.trading_halted = false) :
    check_circuit_breakers s rm pv =
      if rm.consecutive_losses ≥ s.MAX_CONSECUTIVE_LOSSES then
        ({ rm with trading_halted := true,
                   halt_reason := some "Max consecutive losses reached" },
          false, some "Max consecutive losses reached")
      else if ¬ s.ENABLE_TRADING then
        (rm, false, some "Trading is disabled in configuration")
      else
        (rm, true, none) := by
  have hnotpos : ¬ (pv > 0) := not_lt.mpr hpv
  have hnottrig : ¬ ((0 : ℚ) ≤ -s.DAILY_LOSS_LIMIT_PCT) :=
    not_le.mpr (neg_lt_zero.mpr hlim)
  simp [check_circuit_breakers, hnh, hnotpos, hnottrig]

/-- C10: for a non-positive portfolio value the daily-loss percentage is
taken to be 0 rather than computed by division, so (with a positive
configured daily-loss limit) the daily-loss rule can never cause the halt;
and if the ledger is not halted, the consecutive-loss count is below the
maximum and trading is enabled, the call returns allowed. -/
theorem breakers_nonpositive_portfolio (s : Settings) (rm : RiskManager) (pv : ℚ)
    (hpv : pv ≤ 0) (hlim : 0 < s.DAILY_LOSS_LIMIT_PCT) :
    (rm.trading_halted = false →
      (check_circuit_breakers s rm pv).1.trading_halted = true →
      s.MAX_CONSECUTIVE_LOSSES ≤ rm.consecutive_losses) ∧
    (rm.trading_halted = false →
      rm.consecutive_losses < s.MAX_CONSECUTIVE_LOSSES →
      s.ENABLE_TRADING = true →
      check_circuit_breakers s rm pv = (rm, true, none)) := by
  constructor
  · intro hnh hhalted
    rw [check_circuit_breakers_nonpos s rm pv hpv hlim hnh] at hhalted
    split_ifs at hhalted with h1 h2
    · exact h1
    · rw [hnh] at hhalted
      exact absurd hhalted (by simp)
    · rw [hnh] at hhalted
      exact absurd hhalted (by simp)
  · intro hnh hcl hen
    rw [check_circuit_breakers_nonpos s rm pv hpv hlim hnh,
      if_neg (not_le.mpr hcl), if_neg (by simp [hen])]

theorem breakers_nonpositive_portfolio_witness :
    (0 : ℚ) ≤ 0 ∧ (0 : ℚ) < 10 ∧
    check_circuit_breakers { defaultSettings with ENABLE_TRADING := true }
        RiskManager.init 0 = (RiskManager.init, true, none) := by
  refine ⟨le_refl 0, by norm_num, ?_⟩
  exact (breakers_nonpositive_portfolio { defaultSettings with ENABLE_TRADING := true }
      RiskManager.init 0 (le_refl 0) (by norm_num [defaultSettings])).2 rfl
      (by norm_num [RiskManager.init, defaultSettings]) rfl

/-- C3 fails as stated: at `entryPrice = stopLossPrice = 1000`,
`portfolioValue = 10000` (which satisfies `entryPrice > 0`,
`stopLossPrice >= 0`, `portfolioValue >= 0`) the zero-price-risk branch
returns the USD minimum as a quantity and the notional `10 * 1000 = 10000`
exceeds the maximum-position-value cap `10000 * 5/100 = 500`. -/
theorem position_size_bounds_counterexample :
    (0 : ℚ) < 1000 ∧ (0 : ℚ) ≤ 1000 ∧ (0 : ℚ) ≤ 10000 ∧
    10000 * (defaultSettings.MAX_POSITION_SIZE_PCT / 100) <
      calculate_position_size defaultSettings "BTC" 1000 1000 10000 none * 1000 := by
  norm_num [calculate_position_size, defaultSettings]

/-- C3 (amended): whenever the price-risk distance is non-zero
(`entryPrice ≠ stopLossPrice`), `entryPrice > 0` and the maximum position
value `portfolioValue * MaxPositionSizePct/100` is at least `MinOrderSizeUsd`,
`calculatePositionSize` yields
`quantity * entryPrice <= portfolioValue * MaxPositionSizePct/100` and
`quantity * entryPrice >= MinOrderSizeUsd`. -/
theorem position_size_bounds (s : Settings) (sym : String)
    (entry_price stop_loss_price portfolio_value : ℚ) (riskPct : Option ℚ)
    (he : 0 < entry_price) (hne : entry_price ≠ stop_loss_price)
    (hmin : s.MIN_ORDER_SIZE_USD ≤ portfolio_value * (s.MAX_POSITION_SIZE_PCT / 100)) :
    calculate_position_size s sym entry_price stop_loss_price portfolio_value riskPct *
        entry_price ≤ portfolio_value * (s.MAX_POSITION_SIZE_PCT / 100) ∧
    s.MIN_ORDER_SIZE_USD ≤
      calculate_position_size s sym entry_price stop_loss_price portfolio_value riskPct *
        entry_price := by
  have habs : ¬ (|entry_price - stop_loss_price| = 0) := by
    rw [abs_eq_zero, sub_eq_zero]
    exact hne
  simp only [calculate_position_size]
  rw [if_neg habs]
  split_ifs with hlt
  · rw [div_mul_cancel₀ _ (ne_of_gt he)]
    exact ⟨hmin, le_refl _⟩
  · push_neg at hlt
    have h2 : portfolio_value * (s.MAX_POSITION_SIZE_PCT / 100) / entry_price *
        entry_price = portfolio_value * (s.MAX_POSITION_SIZE_PCT / 100) :=
      div_mul_cancel₀ _ (ne_of_gt he)
    exact ⟨(mul_le_mul_of_nonneg_right (min_le_right _ _) he.le).trans h2.le, hlt⟩

theorem position_size_bounds_witness :
    calculate_position_size defaultSettings "AAPL" 150 147 10000 (some 2) * 150 ≤
        10000 * (defaultSettings.MAX_POSITION_SIZE_PCT / 100) ∧
    defaultSettings.MIN_ORDER_SIZE_USD ≤
      calculate_position_size defaultSettings "AAPL" 150 147 10000 (some 2) * 150 :=
  position_size_bounds defaultSettings "AAPL" 150 147 10000 (some 2) (by norm_num)
    (by norm_num) (by norm_num [defaultSettings])

/-- C4 (code evaluated at the failing input): with a zero price-risk
distance the code returns `Decimal(MIN_ORDER_SIZE_USD)` itself as the
quantity — the USD minimum, not `MinOrderSizeUsd / entryPrice` as the spec
states; at `entryPrice = 150` that is 10 units instead of `1/15`. -/
theorem zero_price_risk_quantity :
    (∀ (s : Settings) (sym : String) (entry pv : ℚ) (riskPct : Option ℚ),
      calculate_position_size s sym entry entry pv riskPct = s.MIN_ORDER_SIZE_USD) ∧
    calculate_position_size defaultSettings "AAPL" 150 150 10000 none = 10 ∧
    defaultSettings.MIN_ORDER_SIZE_USD / 150 = (1 : ℚ) / 15 ∧
    (10 : ℚ) ≠ 1 / 15 := by
  refine ⟨fun s sym entry pv riskPct => ?_,
    by norm_num [calculate_position_size, defaultSettings],
    by norm_num [defaultSettings], by norm_num⟩
  simp [calculate_position_size]

theorem check_circuit_breakers_halt_cases (s : Settings) (rm : RiskManager) (pv : ℚ) :
    ((check_circuit_breakers s rm pv).1.trading_halted = rm.trading_halted ∧
      (check_circuit_breakers s rm pv).1.halt_reason = rm.halt_reason) ∨
    (rm.trading_halted = false ∧
      (check_circuit_breakers s rm pv).1.trading_halted = true) := by
  simp only [check_circuit_breakers]
  split_ifs <;> first
    | exact Or.inl ⟨rfl, rfl⟩
    | exact Or.inr ⟨by simp_all, rfl⟩

theorem check_circuit_breakers_reason (s : Settings) (rm : RiskManager) (pv : ℚ)
    (hnh : rm.trading_halted = false)
    (hblk : (check_circuit_breakers s rm pv).2.1 = false) :
    (check_circuit_breakers s rm pv).2.2 ≠ none := by
  simp only [check_circuit_breakers, hnh, Bool.false_eq_true, if_false] at hblk ⊢
  split_ifs at hblk ⊢ <;> simp_all

/-- C6 fails as stated: a rejecting `validateTrade` call can change the
ledger, because `checkCircuitBreakers` runs inside it and freshly sets the
halt flag when the daily-loss rule trips during the call. -/
theorem validate_reject_frame_counterexample :
    ({ RiskManager.init with daily_pnl := -1000 } : RiskManager).trading_halted = false ∧
    (validate_trade defaultSettings { RiskManager.init with daily_pnl := -1000 }
        "AAPL" "buy" 1 150 10000).2.1 = false ∧
    (validate_trade defaultSettings { RiskManager.init with daily_pnl := -1000 }
        "AAPL" "buy" 1 150 10000).1.trading_halted = true := by
  refine ⟨rfl, ?_, ?_⟩ <;>
    norm_num [validate_trade, check_circuit_breakers, RiskManager.init, defaultSettings]

/-- C6 (amended): whenever `validateTrade` rejects, `dailyRealizedPnl`,
`consecutiveLosses` and the open positions are unchanged and (from a
non-halted state) a rejection reason is returned; the halt flag and reason
are unchanged, except that a circuit-breaker condition tripping during the
call sets the halt flag from false to true. -/
theorem validate_reject_frame (s : Settings) (rm : RiskManager) (sym side : String)
    (q p pv : ℚ) (hrej : (validate_trade s rm sym side q p pv).2.1 = false) :
    (validate_trade s rm sym side q p pv).1.daily_pnl = rm.daily_pnl ∧
    (validate_trade s rm sym side q p pv).1.consecutive_losses = rm.consecutive_losses ∧
    (validate_trade s rm sym side q p pv).1.open_positions = rm.open_positions ∧
    (((validate_trade s rm sym side q p pv).1.trading_halted = rm.trading_halted ∧
        (validate_trade s rm sym side q p pv).1.halt_reason = rm.halt_reason) ∨
      (rm.trading_halted = false ∧
        (validate_trade s rm sym side q p pv).1.trading_halted = true)) ∧
    (rm.trading_halted = false → (validate_trade s rm sym side q p pv).2.2 ≠ none) := by
  have hfst := validate_trade_fst s rm sym side q p pv
  have hframe := check_circuit_breakers_frame s rm pv
  refine ⟨by rw [hfst]; exact hframe.1, by rw [hfst]; exact hframe.2.1,
    by rw [hfst]; exact hframe.2.2,
    by rw [hfst]; exact check_circuit_breakers_halt_cases s rm pv, ?_⟩
  intro hnh
  by_cases hcb : (check_circuit_breakers s rm pv).2.1 = true
  · simp only [validate_trade, hcb] at hrej ⊢
    split_ifs at hrej ⊢ <;> simp_all
  · have hb : (check_circuit_breakers s rm pv).2.1 = false := by
      cases h' : (check_circuit_breakers s rm pv).2.1
      · rfl
      · exact absurd h' hcb
    simp only [validate_trade]
    rw [if_pos (by simp [hb])]
    exact check_circuit_breakers_reason s rm pv hnh hb

theorem validate_reject_frame_witness :
    (validate_trade defaultSettings RiskManager.init "AAPL" "buy" 1 150 10000).2.1 =
      false ∧
    (validate_trade defaultSettings RiskManager.init "AAPL" "buy" 1 150
        10000).1.open_positions = RiskManager.init.open_positions ∧
    (validate_trade defaultSettings RiskManager.init "AAPL" "buy" 1 150 10000).2.2 ≠
      none := by
  have hrej : (validate_trade defaultSettings RiskManager.init
      "AAPL" "buy" 1 150 10000).2.1 = false := by
    norm_num [validate_trade, check_circuit_breakers, RiskManager.init, defaultSettings]
  have h := validate_reject_frame defaultSettings RiskManager.init "AAPL" "buy"
    1 150 10000 hrej
  exact ⟨hrej, h.2.2.1, h.2.2.2.2 rfl⟩

theorem validate_trade_accept_length (s : Settings) (rm : RiskManager)
    (sym side : String) (q p pv : ℚ)
    (hacc : (validate_trade s rm sym side q p pv).2.1 = true) :
    rm.open_positions.length < s.MAX_OPEN_POSITIONS := by
  have hpos : (check_circuit_breakers s rm pv).1.open_positions = rm.open_positions :=
    (check_circuit_breakers_frame s rm pv).2.2
  simp only [validate_trade] at hacc
  by_cases hb : (check_circuit_breakers s rm pv).2.1 = true
  · rw [if_neg (by simp [hb])] at hacc
    split_ifs at hacc with h2 h3 h4 h5
    all_goals simp at hacc
    rw [hpos] at h5
    omega
  · rw [if_pos hb] at hacc
    exact absurd hacc (by simp)

/-- C7: `validateTrade` rejects whenever the number of open positions has
reached `MaxOpenPositions`, and the orchestrated open path (validate, then
`addPosition` on approval) preserves the invariant
`len(positions) <= MaxOpenPositions`, including when `addPosition`
overwrites an already-open instrument. -/
theorem max_open_positions_invariant (s : Settings) (rm : RiskManager)
    (sym side signal : String) (q p price pv : ℚ) :
    (rm.open_positions.length ≥ s.MAX_OPEN_POSITIONS →
      (validate_trade s rm sym side q p pv).2.1 = false) ∧
    (∀ (pos : Position), lookupPos rm.open_positions sym = some pos →
      (add_position rm sym q p price).open_positions.length =
        rm.open_positions.length) ∧
    (rm.open_positions.length ≤ s.MAX_OPEN_POSITIONS →
      (execute_trade s rm sym signal price pv).1.open_positions.length ≤
        s.MAX_OPEN_POSITIONS) := by
  refine ⟨fun hfull => ?_, fun pos hpos => ?_, fun hle => ?_⟩
  · by_contra hne
    have hacc : (validate_trade s rm sym side q p pv).2.1 = true := by
      cases hb : (validate_trade s rm sym side q p pv).2.1
      · exact absurd hb hne
      · rfl
    have := validate_trade_accept_length s rm sym side q p pv hacc
    omega
  · simp only [add_position]
    exact length_upsertPos_of_mem rm.open_positions sym pos _ hpos
  · simp only [execute_trade]
    set stp := (if signal = "buy" then price * (1 - s.DEFAULT_STOP_LOSS_PCT / 100)
      else price * (1 + s.DEFAULT_STOP_LOSS_PCT / 100)) with hstp
    split_ifs with hacc
    · have hlen := validate_trade_accept_length s rm sym signal
        (calculate_position_size s sym price stp pv none) price pv hacc
      have hpos : (validate_trade s rm sym signal
          (calculate_position_size s sym price stp pv none)
          price pv).1.open_positions = rm.open_positions := by
        rw [validate_trade_fst]
        exact (check_circuit_breakers_frame s rm pv).2.2
      simp only [add_position]
      calc (upsertPos _ sym _).length ≤ _ + 1 := length_upsertPos_le _ _ _
        _ ≤ s.MAX_OPEN_POSITIONS := by rw [hpos]; omega
    · rw [validate_trade_fst]
      rw [(check_circuit_breakers_frame s rm pv).2.2]
      exact hle

theorem max_open_positions_invariant_witness :
    (add_position RiskManager.init "MSFT" 1 100 98).open_positions.length ≤
      ({ defaultSettings with ENABLE_TRADING := true } : Settings).MAX_OPEN_POSITIONS ∧
    (execute_trade { defaultSettings with ENABLE_TRADING := true }
        (add_position RiskManager.init "MSFT" 1 100 98) "AAPL" "buy" 150
        10000).1.open_positions.length ≤
      ({ defaultSettings with ENABLE_TRADING := true } : Settings).MAX_OPEN_POSITIONS := by
  have hle : (add_position RiskManager.init "MSFT" 1 100 98).open_positions.length ≤
      ({ defaultSettings with ENABLE_TRADING := true } : Settings).MAX_OPEN_POSITIONS := by
    simp [add_position, RiskManager.init, upsertPos, defaultSettings]
  exact ⟨hle,
    (max_open_positions_invariant { defaultSettings with ENABLE_TRADING := true }
        (add_position RiskManager.init "MSFT" 1 100 98) "AAPL" "buy" "buy"
        1 150 150 10000).2.2 hle⟩
